import Mathlib

/-!
Verification development for the agentcore-demo repository.

Strings of the Python source are modelled as `List Char`; Python
`str.replace(old, new)` (leftmost, non-overlapping, replacement never
rescanned) is modelled by `repl2` (two-character patterns) and `repl1`
(one-character pattern and replacement).  Machine text handled by the
code is ASCII, so `Char.toLower` models Python `str.lower` on the
character range the classifiers inspect.
-/

/-- The NUL character, used by `extract_agent_message` in
`src/cdk/src/lambda/process_order/lambda.py` as the placeholder that
protects a doubled backslash during unescaping. -/
def nulChar : Char := Char.ofNat 0

/-- A literal backslash character. -/
def bslash : Char := '\\'

/-- A literal single-quote character. -/
def squote : Char := Char.ofNat 39

/-- Python `s.replace(ab, r)` for a two-character pattern `[a, b]`:
leftmost-first, non-overlapping, and the replacement `r` is never
rescanned. -/
def repl2 (a b : Char) (r : List Char) : List Char → List Char
  | x :: y :: rest =>
    if x = a ∧ y = b then r ++ repl2 a b r rest
    else x :: repl2 a b r (y :: rest)
  | l => l

/-- Python `s.replace(a, r)` for a single-character pattern and a
single-character replacement. -/
def repl1 (a r : Char) (s : List Char) : List Char :=
  s.map fun c => if c = a then r else c

/-- Lines 143-152 of `src/cdk/src/lambda/process_order/lambda.py`:
the unescape chain of `extract_agent_message`.  `\\` is first parked on
the NUL placeholder, the two-character escapes are resolved, and the
placeholder is restored to a single backslash last. -/
def unescape (s : List Char) : List Char :=
  repl1 nulChar bslash
    (repl2 bslash '"' ['"']
      (repl2 bslash squote [squote]
        (repl2 bslash 'r' ['\r']
          (repl2 bslash 't' ['\t']
            (repl2 bslash 'n' ['\n']
              (repl2 bslash bslash [nulChar] s))))))

/-- Modelled from the spec: the escaping inserted by the serialization
step that turns the composite execution result into transport text
(the step itself is performed by the Python runtime, not by repository
code).  Over the supported escape set - newline, tab, carriage return,
single quote, double quote and the backslash itself - each special
character becomes a backslash-prefixed two-character sequence; every
other character is untouched. -/
def escChar (c : Char) : List Char :=
  if c = bslash then [bslash, bslash]
  else if c = '\n' then [bslash, 'n']
  else if c = '\t' then [bslash, 't']
  else if c = '\r' then [bslash, 'r']
  else if c = squote then [bslash, squote]
  else if c = '"' then [bslash, '"']
  else [c]

/-- Modelled from the spec: serialization-side escaping of a whole
string (character-by-character application of `escChar`). -/
def pyEscape (s : List Char) : List Char := s.flatMap escChar

/-- Intermediate per-character form after the first replace of
`unescape` (backslash pairs parked on the NUL placeholder). -/
def esc1 (c : Char) : List Char := if c = bslash then [nulChar] else escChar c

/-- Per-character form after the second replace (newline resolved). -/
def esc2 (c : Char) : List Char := if c = '\n' then ['\n'] else esc1 c

/-- Per-character form after the third replace (tab resolved). -/
def esc3 (c : Char) : List Char := if c = '\t' then ['\t'] else esc2 c

/-- Per-character form after the fourth replace (carriage return resolved). -/
def esc4 (c : Char) : List Char := if c = '\r' then ['\r'] else esc3 c

/-- Per-character form after the fifth replace (single quote resolved). -/
def esc5 (c : Char) : List Char := if c = squote then [squote] else esc4 c

/-- Per-character form after the sixth replace (double quote resolved). -/
def esc6 (c : Char) : List Char := if c = '"' then ['"'] else esc5 c

/-- Python `sub in s` on strings: Boolean substring test. -/
def strContains (s pat : List Char) : Bool :=
  pat.isPrefixOf s ||
    match s with
    | [] => false
    | _ :: t => strContains t pat

/-- Python `str.lower` (the marker phrases inspected by the classifiers
are ASCII, where `Char.toLower` agrees with Python). -/
def lowerStr (s : List Char) : List Char := s.map Char.toLower

/-- The `message` dict of an agent result:
`{'role': 'assistant', 'content': [{'text': ...}]}`; each content block
is represented by its `text` field. -/
structure AgentMessage where
  role : String
  content : List (List Char)

/-- The `result` attribute of a NodeResult (an AgentResult carrying a
message). -/
structure AgentResult where
  message : AgentMessage

/-- A NodeResult as stored in `GraphState.results`. -/
structure NodeResult where
  result : AgentResult

/-- The execution state handed to edge conditions and to the caller:
`results` is the ordered list of node executions (the strands `results`
dict keeps, per node identifier, the most recent entry - the spec's
"later entries overwrite earlier ones" - which `latestLookup` models),
and `strRepr` is the `str(result)` rendering used by the fallback
branches of the source. -/
structure GraphState where
  results : List (String × NodeResult)
  strRepr : List Char

/-- Python dict access `result.results[node]` over the execution-ordered
result list: the most recent entry for the identifier wins. -/
def latestLookup (l : List (String × NodeResult)) (k : String) : Option NodeResult :=
  l.reverse.lookup k

/-- Lines 452-462 (and identically 484-495) of
`src/agentcore/runtime/core.py`: extract the router node's latest output
text from `GraphState.results`, or the empty string when any step of the
navigation fails. -/
def routerOutput (result : GraphState) : List Char :=
  match latestLookup result.results "router" with
  | some router_result =>
    match router_result.result.message.content with
    | t :: _ => t
    | [] => []
  | none => []

/-- Lines 464-466 (and 497-499) of `src/agentcore/runtime/core.py`:
`if not router_output: router_output = str(result)` - the fallback to
the string rendering of the whole state. -/
def effectiveRouterOutput (result : GraphState) : List Char :=
  if routerOutput result = [] then result.strRepr else routerOutput result

/-- The image-path marker phrase. -/
def route_to_image_marker : List Char := "route_to_image".toList

/-- Lines 449-474 of `src/agentcore/runtime/core.py`: `is_image_request`,
the condition of the edge router to image_processor. -/
def is_image_request (result : GraphState) : Bool :=
  let result_str := lowerStr (effectiveRouterOutput result)
  strContains result_str route_to_image_marker

/-- Lines 481-514 of `src/agentcore/runtime/core.py`: `is_order_request`,
the condition of the edge router to order. -/
def is_order_request (result : GraphState) : Bool :=
  let result_str := lowerStr (effectiveRouterOutput result)
  let has_order_keywords :=
    strContains result_str "selected option".toList &&
    strContains result_str "items to order".toList
  let has_total_and_customer :=
    strContains result_str "total amount".toList &&
    strContains result_str "customer id".toList
  let is_not_image_route := !(strContains result_str route_to_image_marker)
  (has_order_keywords || has_total_and_customer) && is_not_image_route

/-- A NodeResult whose message carries a single text block. -/
def mkNodeResult (out : List Char) : NodeResult := ⟨⟨⟨"assistant", [out]⟩⟩⟩

/-- Scenario B router output (literal newlines). -/
def orderScenarioText : List Char :=
  "Selected Option: 2\nItems to Order: milk, bread\nTotal Amount: 10\nCustomer Id: 555".toList

/-- Execution state after the router produced the Scenario B order text. -/
def orderScenarioState : GraphState :=
  ⟨[("router", mkNodeResult orderScenarioText)], []⟩

/-- Scenario A router output. -/
def imageScenarioText : List Char := "please route_to_image now".toList

/-- Execution state after the router produced the Scenario A image text. -/
def imageScenarioState : GraphState :=
  ⟨[("router", mkNodeResult imageScenarioText)], []⟩

/-- A graph edge: source, target, and an optional condition predicate
over the execution state (absence means unconditional), as declared by
`builder.add_edge` in `build_order_processing_graph`. -/
structure GEdge where
  source : String
  target : String
  condition : Option (GraphState → Bool)

/-- A graph definition: node identifiers, entry node, terminal node,
edges in declaration order, and the execution bounds configured through
`set_execution_timeout` and `set_max_node_executions`. -/
structure GraphDef where
  nodes : List String
  entry : String
  terminal : String
  edges : List GEdge
  executionTimeout : Nat
  maxNodeExecutions : Nat

/-- Evaluate one edge against the state: an absent condition matches
unconditionally. -/
def evalCond (st : GraphState) (e : GEdge) : Bool :=
  match e.condition with
  | none => true
  | some c => c st

/-- Modelled from the spec: edge selection of the GraphExecutor (the
executor itself lives in the strands library, outside this repository).
The outgoing edges of the current node are evaluated in declaration
order and the first one whose condition holds (or that has no
condition) is taken. -/
def selectEdge (g : GraphDef) (node : String) (st : GraphState) : Option GEdge :=
  (g.edges.filter fun e => e.source == node).find? (evalCond st)

/-- Outcome of a run: success, bounds exceeded, or a node with no
matching edge; each carries the (partial) list of node executions. -/
inductive RunOutcome where
  | success (results : List (String × NodeResult))
  | boundsExceeded (results : List (String × NodeResult))
  | noMatchingEdge (results : List (String × NodeResult))

/-- The execution record carried by any outcome. -/
def RunOutcome.results : RunOutcome → List (String × NodeResult)
  | .success r => r
  | .boundsExceeded r => r
  | .noMatchingEdge r => r

/-- Modelled from the spec: the GraphExecutor loop (the executor itself
lives in the strands library, outside this repository).  `fuel` is the
number of node executions still allowed after the current one; each
iteration invokes the current node's capability on the prompt, records
a NodeResult, stops successfully when the terminal node has executed,
aborts with the partial state when the execution-count bound is hit,
and otherwise follows the first matching edge, feeding the node's raw
output to the next node as its prompt.  `render` models the
`str(result)` rendering available to conditions through the state. -/
def runAux (g : GraphDef) (caps : String → List Char → List Char)
    (render : List (String × NodeResult) → List Char) :
    Nat → String → List Char → List (String × NodeResult) → RunOutcome
  | 0, current, prompt, results =>
    let results' := results ++ [(current, mkNodeResult (caps current prompt))]
    if current = g.terminal then .success results' else .boundsExceeded results'
  | Nat.succ fuel, current, prompt, results =>
    let out := caps current prompt
    let results' := results ++ [(current, mkNodeResult out)]
    if current = g.terminal then .success results'
    else
      match selectEdge g current ⟨results', render results'⟩ with
      | none => .noMatchingEdge results'
      | some e => runAux g caps render fuel e.target out results'

/-- Modelled from the spec: `run(graph, initialPrompt)` starts at the
entry node with the initial prompt and an empty execution record, and
performs at most `maxNodeExecutions` node invocations. -/
def run (g : GraphDef) (caps : String → List Char → List Char)
    (render : List (String × NodeResult) → List Char)
    (initialPrompt : List Char) : RunOutcome :=
  match g.maxNodeExecutions with
  | 0 => .boundsExceeded []
  | Nat.succ fuel => runAux g caps render fuel g.entry initialPrompt []

/-- Construction-time validation of a graph definition (spec section 7):
the entry node exists, every edge joins existing nodes, and every
non-terminal node has an unconditional (always-available) outgoing
edge. -/
def validGraph (g : GraphDef) : Prop :=
  g.entry ∈ g.nodes ∧
  (∀ e ∈ g.edges, e.source ∈ g.nodes ∧ e.target ∈ g.nodes) ∧
  (∀ n ∈ g.nodes, n ≠ g.terminal → ∃ e ∈ g.edges, e.source = n ∧ e.condition.isNone = true)

/-- Lines 435-525 of `src/agentcore/runtime/core.py`:
`build_order_processing_graph` - five nodes, entry point router, the
six edges in declaration order with their conditions, a 300 second
execution timeout and a cap of 10 node executions.  The router is the
terminal node (the node whose output is authoritative for the caller,
per the spec's designation). -/
def orderProcessingGraph : GraphDef where
  nodes := ["router", "image_processor", "catalog", "order", "warehouse"]
  entry := "router"
  terminal := "router"
  edges :=
    [⟨"router", "image_processor", some is_image_request⟩,
     ⟨"image_processor", "catalog", none⟩,
     ⟨"catalog", "router", none⟩,
     ⟨"router", "order", some is_order_request⟩,
     ⟨"order", "warehouse", none⟩,
     ⟨"warehouse", "router", none⟩]
  executionTimeout := 300
  maxNodeExecutions := 10

instance (g : GraphDef) : Decidable (validGraph g) := by
  unfold validGraph
  infer_instance

/-- A state whose router result carries empty output text and whose
string rendering contains the image marker. -/
def emptyRouterStateA : GraphState :=
  ⟨[("router", mkNodeResult [])], "route_to_image".toList⟩

/-- A state whose router result carries empty output text and whose
string rendering does not contain the image marker. -/
def emptyRouterStateB : GraphState :=
  ⟨[("router", mkNodeResult [])], "no marker here".toList⟩

/-- A state with the Scenario B router output but a different string
rendering of the whole state. -/
def orderScenarioStateAlt : GraphState :=
  ⟨[("router", mkNodeResult orderScenarioText)], "different rendering".toList⟩

/-- Decimal digit character for a digit value below ten. -/
def digitCh (d : Nat) : Char := Char.ofNat (48 + d)

/-- Decimal rendering of a natural number, as produced by Python
f-string interpolation of an int. -/
def natToChars (n : Nat) : List Char :=
  if n = 0 then ['0'] else ((Nat.digits 10 n).map digitCh).reverse

/-- Lines 189-191 of `src/cdk/src/lambda/process_order/lambda.py`:
`time_window = int(current_time // 300)` and
`session_id = f"whatsapp-session-{customer_message['from']}-{time_window}"`. -/
def session_id (sender : List Char) (clockSeconds : Nat) : List Char :=
  "whatsapp-session-".toList ++ sender ++ '-' :: natToChars (clockSeconds / 300)

/-- Modelled from the spec: the SessionKeyDeriver contract
`deriveKey(conversationId, clockSeconds, windowSeconds)` - the
conversation identifier concatenated with floor(clockSeconds /
windowSeconds).  The handler in the source instantiates the window at
300 seconds and adds a fixed prefix and separator. -/
def deriveKey (conversationId : List Char) (clockSeconds windowSeconds : Nat) : List Char :=
  conversationId ++ natToChars (clockSeconds / windowSeconds)

/-- An item of the pending-orders DynamoDB table as written by
`store_catalog_options` (lines 42-49 of
`src/cdk/src/lambda/process_order/lambda.py`). -/
structure PendingOrderItem where
  catalog_options : List Char
  created_at : Nat
  ttl : Nat
deriving DecidableEq

/-- DynamoDB `put_item`: overwrite any existing record under the key.
TTL-based removal of expired records is a separate, lazy process of
the medium and is deliberately not folded into reads. -/
def ddb_put (table : List (String × PendingOrderItem)) (k : String)
    (item : PendingOrderItem) : List (String × PendingOrderItem) :=
  (k, item) :: table.filter fun p => !(p.1 == k)

/-- DynamoDB `get_item`: the record under the key, whenever it is
physically present - expired-but-not-yet-purged records included. -/
def ddb_get (table : List (String × PendingOrderItem)) (k : String) :
    Option PendingOrderItem :=
  table.lookup k

/-- Lines 38-53 of `src/cdk/src/lambda/process_order/lambda.py`:
`store_catalog_options` writes the catalog message under the customer
id with `ttl = int(time.time()) + 1800`. -/
def store_catalog_options (table : List (String × PendingOrderItem))
    (customer_id : String) (catalog_message : List Char) (now : Nat) :
    List (String × PendingOrderItem) :=
  ddb_put table customer_id ⟨catalog_message, now, now + 1800⟩

/-- Lines 56-71 of `src/cdk/src/lambda/process_order/lambda.py`:
`get_catalog_options` returns the stored catalog message when the item
is in the table and nothing otherwise.  It consults no clock and
performs no expiry check of its own. -/
def get_catalog_options (table : List (String × PendingOrderItem))
    (customer_id : String) : Option (List Char) :=
  (ddb_get table customer_id).map PendingOrderItem.catalog_options

/-- The table produced by storing options for conv1 at time 0; its
single record carries expiry timestamp 1800. -/
def expiredTable : List (String × PendingOrderItem) :=
  store_catalog_options [] "conv1" ("options text".toList) 0

/-- The opening scratchpad tag stripped by `extract_agent_message`. -/
def thinkingOpenTag : List Char := "<thinking>".toList

/-- The closing scratchpad tag stripped by `extract_agent_message`. -/
def thinkingCloseTag : List Char := "</thinking>".toList

/-- Remainder of the text after the first occurrence of `pat`, or
nothing when `pat` does not occur. -/
def findDropAfter (pat : List Char) : List Char → Option (List Char)
  | [] => if pat = [] then some [] else none
  | c :: cs =>
    if pat.isPrefixOf (c :: cs) then some ((c :: cs).drop pat.length)
    else findDropAfter pat cs

/-- Line 155 of `src/cdk/src/lambda/process_order/lambda.py`:
`re.sub` of the lazy pattern `<thinking>.*?</thinking>` (DOTALL) with
the empty string - each opening tag is removed together with everything
up to the nearest closing tag; an opening tag with no closing tag does
not match and is kept.  The fuel argument bounds the scan by the input
length. -/
def stripThinkingAux : Nat → List Char → List Char
  | 0, s => s
  | _ + 1, [] => []
  | fuel + 1, c :: cs =>
    if thinkingOpenTag.isPrefixOf (c :: cs) then
      match findDropAfter thinkingCloseTag ((c :: cs).drop thinkingOpenTag.length) with
      | some rest => stripThinkingAux fuel rest
      | none => c :: stripThinkingAux fuel cs
    else c :: stripThinkingAux fuel cs

/-- The lazy thinking-block removal applied with sufficient fuel. -/
def stripThinking (s : List Char) : List Char := stripThinkingAux s.length s

/-- Line 156 of `src/cdk/src/lambda/process_order/lambda.py`:
`re.sub` of `</?thinking>` with the empty string - any leftover opening
or closing tag is removed on its own. -/
def stripTagsAux : Nat → List Char → List Char
  | 0, s => s
  | _ + 1, [] => []
  | fuel + 1, c :: cs =>
    if thinkingOpenTag.isPrefixOf (c :: cs) then
      stripTagsAux fuel ((c :: cs).drop thinkingOpenTag.length)
    else if thinkingCloseTag.isPrefixOf (c :: cs) then
      stripTagsAux fuel ((c :: cs).drop thinkingCloseTag.length)
    else c :: stripTagsAux fuel cs

/-- The leftover-tag removal applied with sufficient fuel. -/
def stripTags (s : List Char) : List Char := stripTagsAux s.length s

/-- The ASCII whitespace class of Python `\s` (the texts the lambda
processes are ASCII). -/
def isPySpace (c : Char) : Bool :=
  c = ' ' || c = '\t' || c = '\n' || c = '\r' || c = Char.ofNat 11 || c = Char.ofNat 12

/-- Line 158 of `src/cdk/src/lambda/process_order/lambda.py`:
`re.sub` of the greedy pattern backslash-n `\s*` backslash-n `\s*`
backslash-n with a double newline.  Since every character consumed by
the pattern is whitespace, a match starts at a newline whose maximal
whitespace run contains at least three newlines and extends to the last
newline of that run; the match is replaced by two newlines and scanning
resumes after it. -/
def collapseAux : Nat → List Char → List Char
  | 0, s => s
  | _ + 1, [] => []
  | fuel + 1, c :: cs =>
    if c = '\n' then
      if 3 ≤ ((c :: cs).takeWhile isPySpace).count '\n' then
        '\n' :: '\n' :: collapseAux fuel ((c :: cs).drop
          (((c :: cs).takeWhile isPySpace).length -
            ((((c :: cs).takeWhile isPySpace).reverse.takeWhile fun x => !(x = '\n')).length)))
      else c :: collapseAux fuel cs
    else c :: collapseAux fuel cs

/-- The blank-run collapsing applied with sufficient fuel. -/
def collapseBlankRuns (s : List Char) : List Char := collapseAux s.length s

/-- Python `str.strip()`: leading and trailing whitespace removed. -/
def pyStrip (s : List Char) : List Char :=
  ((s.dropWhile isPySpace).reverse.dropWhile isPySpace).reverse

/-- Lines 154-158 of `src/cdk/src/lambda/process_order/lambda.py`:
the cleanup applied to the unescaped router text - thinking blocks,
leftover tags, blank-run collapsing and the final strip. -/
def postprocessMessage (s : List Char) : List Char :=
  pyStrip (collapseBlankRuns (stripTags (stripThinking s)))

/-- Line 123 of `src/cdk/src/lambda/process_order/lambda.py`: the
fixed text returned when no node results are found. -/
def errorMessage : List Char :=
  "Error: Unable to process the response. Please try again.".toList

/-- Lines 121-139 of `src/cdk/src/lambda/process_order/lambda.py`: the
node selection of `extract_agent_message` over the regex matches (node
name, raw message text).  No matches at all is the failure case; a
router match is preferred; otherwise the last match is used as
fallback. -/
def select_node_match (all_matches : List (String × List Char)) :
    Option (String × List Char) :=
  match all_matches.find? (fun m => m.1 == "router") with
  | some m => some m
  | none => all_matches.getLast?

/-- Lines 85-163 of `src/cdk/src/lambda/process_order/lambda.py`:
`extract_agent_message` on the list of regex matches recovered from the
stringified response (the `re.finditer` stage that produces the (node,
text) pairs is taken as the input boundary of the model): select a
node result, unescape its text and clean it up, or return the fixed
error text when there are no matches. -/
def extract_agent_message (all_matches : List (String × List Char)) : List Char :=
  match select_node_match all_matches with
  | none => errorMessage
  | some m => postprocessMessage (unescape m.2)

/-- A response containing a single non-router node result. -/
def catalogOnlyMatches : List (String × List Char) :=
  [("catalog", "Here are your options".toList)]

/-- A second response containing a single non-router node result. -/
def warehouseOnlyMatches : List (String × List Char) :=
  [("warehouse", "Delivery booked".toList)]

/-- Lines 587-607 of `src/agentcore/runtime/core.py`: the extraction
block of `process_grocery_list` - navigate to the router entry of the
results dict (per the spec's ExecutionState, the most recent execution
of the router node; the strands dict overwrite is modelled by
`latestLookup`), return its first content block's text when non-empty,
and fall back to the string representation of the whole result
otherwise. -/
def extract_router_message (result : GraphState) : List Char :=
  match latestLookup result.results "router" with
  | some router_result =>
    match router_result.result.message.content with
    | t :: _ => if t = [] then result.strRepr else t
    | [] => result.strRepr
  | none => result.strRepr

lemma repl2_nil (a b : Char) (r : List Char) : repl2 a b r [] = [] := by
  simp [repl2]

lemma repl2_cons_ne (a b : Char) (r : List Char) (x : Char) (t : List Char)
    (hx : x ≠ a) : repl2 a b r (x :: t) = x :: repl2 a b r t := by
  cases t with
  | nil => simp [repl2]
  | cons y t => simp [repl2, hx]

lemma repl2_match (a b : Char) (r t : List Char) :
    repl2 a b r (a :: b :: t) = r ++ repl2 a b r t := by
  simp [repl2]

lemma repl2_cons₂ (a b : Char) (r : List Char) (x y : Char) (t : List Char)
    (h : ¬(x = a ∧ y = b)) (hy : y ≠ a) :
    repl2 a b r (x :: y :: t) = x :: y :: repl2 a b r t := by
  rw [show repl2 a b r (x :: y :: t) = x :: repl2 a b r (y :: t) by simp [repl2, h],
    repl2_cons_ne a b r y t hy]

/-- One global two-character replace distributes over a token
decomposition of the input, provided no token ends in the pattern head
and the pattern never spans two tokens. -/
lemma repl2_flatMap (a b : Char) (r : List Char) (f g : Char → List Char)
    (hf : ∀ c, (f c = [a, b] ∧ g c = r) ∨
               (g c = f c ∧ ((∃ x, f c = [x] ∧ x ≠ a) ∨
                             (∃ x y, f c = [x, y] ∧ ¬(x = a ∧ y = b) ∧ y ≠ a)))) :
    ∀ s : List Char, repl2 a b r (s.flatMap f) = s.flatMap g := by
  intro s
  induction s with
  | nil => simp [repl2_nil]
  | cons c s ih =>
    rcases hf c with ⟨h1, h2⟩ | ⟨h2, ⟨x, hx, hxa⟩ | ⟨x, y, hxy, hnb, hya⟩⟩
    · simp only [List.flatMap_cons, h1, h2, List.cons_append, List.nil_append,
        repl2_match, ih]
    · simp only [List.flatMap_cons, h2, hx, List.singleton_append]
      rw [repl2_cons_ne a b r x _ hxa, ih]
    · simp only [List.flatMap_cons, h2, hxy, List.cons_append, List.singleton_append]
      rw [repl2_cons₂ a b r x y _ hnb hya]
      simpa using ih

lemma pass1 (s : List Char) :
    repl2 bslash bslash [nulChar] (s.flatMap escChar) = s.flatMap esc1 := by
  refine repl2_flatMap bslash bslash [nulChar] escChar esc1 (fun c => ?_) s
  by_cases hb : c = bslash
  · subst hb; exact Or.inl (by decide)
  by_cases hn : c = '\n'
  · subst hn; exact Or.inr ⟨by decide, Or.inr ⟨bslash, 'n', by decide, by decide, by decide⟩⟩
  by_cases ht : c = '\t'
  · subst ht; exact Or.inr ⟨by decide, Or.inr ⟨bslash, 't', by decide, by decide, by decide⟩⟩
  by_cases hr : c = '\r'
  · subst hr; exact Or.inr ⟨by decide, Or.inr ⟨bslash, 'r', by decide, by decide, by decide⟩⟩
  by_cases hq : c = squote
  · subst hq; exact Or.inr ⟨by decide, Or.inr ⟨bslash, squote, by decide, by decide, by decide⟩⟩
  by_cases hd : c = '"'
  · subst hd; exact Or.inr ⟨by decide, Or.inr ⟨bslash, '"', by decide, by decide, by decide⟩⟩
  · exact Or.inr ⟨by simp [escChar, esc1, hb, hn, ht, hr, hq, hd],
      Or.inl ⟨c, by simp [escChar, hb, hn, ht, hr, hq, hd], hb⟩⟩

lemma pass2 (s : List Char) :
    repl2 bslash 'n' ['\n'] (s.flatMap esc1) = s.flatMap esc2 := by
  refine repl2_flatMap bslash 'n' ['\n'] esc1 esc2 (fun c => ?_) s
  by_cases hb : c = bslash
  · subst hb; exact Or.inr ⟨by decide, Or.inl ⟨nulChar, by decide, by decide⟩⟩
  by_cases hn : c = '\n'
  · subst hn; exact Or.inl (by decide)
  by_cases ht : c = '\t'
  · subst ht; exact Or.inr ⟨by decide, Or.inr ⟨bslash, 't', by decide, by decide, by decide⟩⟩
  by_cases hr : c = '\r'
  · subst hr; exact Or.inr ⟨by decide, Or.inr ⟨bslash, 'r', by decide, by decide, by decide⟩⟩
  by_cases hq : c = squote
  · subst hq; exact Or.inr ⟨by decide, Or.inr ⟨bslash, squote, by decide, by decide, by decide⟩⟩
  by_cases hd : c = '"'
  · subst hd; exact Or.inr ⟨by decide, Or.inr ⟨bslash, '"', by decide, by decide, by decide⟩⟩
  · exact Or.inr ⟨by simp [esc2, esc1, hb, hn],
      Or.inl ⟨c, by simp [esc1, escChar, hb, hn, ht, hr, hq, hd], hb⟩⟩

lemma pass3 (s : List Char) :
    repl2 bslash 't' ['\t'] (s.flatMap esc2) = s.flatMap esc3 := by
  refine repl2_flatMap bslash 't' ['\t'] esc2 esc3 (fun c => ?_) s
  by_cases hb : c = bslash
  · subst hb; exact Or.inr ⟨by decide, Or.inl ⟨nulChar, by decide, by decide⟩⟩
  by_cases hn : c = '\n'
  · subst hn; exact Or.inr ⟨by decide, Or.inl ⟨'\n', by decide, by decide⟩⟩
  by_cases ht : c = '\t'
  · subst ht; exact Or.inl (by decide)
  by_cases hr : c = '\r'
  · subst hr; exact Or.inr ⟨by decide, Or.inr ⟨bslash, 'r', by decide, by decide, by decide⟩⟩
  by_cases hq : c = squote
  · subst hq; exact Or.inr ⟨by decide, Or.inr ⟨bslash, squote, by decide, by decide, by decide⟩⟩
  by_cases hd : c = '"'
  · subst hd; exact Or.inr ⟨by decide, Or.inr ⟨bslash, '"', by decide, by decide, by decide⟩⟩
  · exact Or.inr ⟨by simp [esc3, esc2, esc1, ht, hn],
      Or.inl ⟨c, by simp [esc2, esc1, escChar, hb, hn, ht, hr, hq, hd], hb⟩⟩

lemma pass4 (s : List Char) :
    repl2 bslash 'r' ['\r'] (s.flatMap esc3) = s.flatMap esc4 := by
  refine repl2_flatMap bslash 'r' ['\r'] esc3 esc4 (fun c => ?_) s
  by_cases hb : c = bslash
  · subst hb; exact Or.inr ⟨by decide, Or.inl ⟨nulChar, by decide, by decide⟩⟩
  by_cases hn : c = '\n'
  · subst hn; exact Or.inr ⟨by decide, Or.inl ⟨'\n', by decide, by decide⟩⟩
  by_cases ht : c = '\t'
  · subst ht; exact Or.inr ⟨by decide, Or.inl ⟨'\t', by decide, by decide⟩⟩
  by_cases hr : c = '\r'
  · subst hr; exact Or.inl (by decide)
  by_cases hq : c = squote
  · subst hq; exact Or.inr ⟨by decide, Or.inr ⟨bslash, squote, by decide, by decide, by decide⟩⟩
  by_cases hd : c = '"'
  · subst hd; exact Or.inr ⟨by decide, Or.inr ⟨bslash, '"', by decide, by decide, by decide⟩⟩
  · exact Or.inr ⟨by simp [esc4, esc3, esc2, esc1, hr, hn, ht],
      Or.inl ⟨c, by simp [esc3, esc2, esc1, escChar, hb, hn, ht, hr, hq, hd], hb⟩⟩

lemma pass5 (s : List Char) :
    repl2 bslash squote [squote] (s.flatMap esc4) = s.flatMap esc5 := by
  refine repl2_flatMap bslash squote [squote] esc4 esc5 (fun c => ?_) s
  by_cases hb : c = bslash
  · subst hb; exact Or.inr ⟨by decide, Or.inl ⟨nulChar, by decide, by decide⟩⟩
  by_cases hn : c = '\n'
  · subst hn; exact Or.inr ⟨by decide, Or.inl ⟨'\n', by decide, by decide⟩⟩
  by_cases ht : c = '\t'
  · subst ht; exact Or.inr ⟨by decide, Or.inl ⟨'\t', by decide, by decide⟩⟩
  by_cases hr : c = '\r'
  · subst hr; exact Or.inr ⟨by decide, Or.inl ⟨'\r', by decide, by decide⟩⟩
  by_cases hq : c = squote
  · subst hq; exact Or.inl (by decide)
  by_cases hd : c = '"'
  · subst hd; exact Or.inr ⟨by decide, Or.inr ⟨bslash, '"', by decide, by decide, by decide⟩⟩
  · exact Or.inr ⟨by simp [esc5, esc4, esc3, esc2, esc1, hq, hn, ht, hr],
      Or.inl ⟨c, by simp [esc4, esc3, esc2, esc1, escChar, hb, hn, ht, hr, hq, hd], hb⟩⟩

lemma pass6 (s : List Char) :
    repl2 bslash '"' ['"'] (s.flatMap esc5) = s.flatMap esc6 := by
  refine repl2_flatMap bslash '"' ['"'] esc5 esc6 (fun c => ?_) s
  by_cases hb : c = bslash
  · subst hb; exact Or.inr ⟨by decide, Or.inl ⟨nulChar, by decide, by decide⟩⟩
  by_cases hn : c = '\n'
  · subst hn; exact Or.inr ⟨by decide, Or.inl ⟨'\n', by decide, by decide⟩⟩
  by_cases ht : c = '\t'
  · subst ht; exact Or.inr ⟨by decide, Or.inl ⟨'\t', by decide, by decide⟩⟩
  by_cases hr : c = '\r'
  · subst hr; exact Or.inr ⟨by decide, Or.inl ⟨'\r', by decide, by decide⟩⟩
  by_cases hq : c = squote
  · subst hq; exact Or.inr ⟨by decide, Or.inl ⟨squote, by decide, by decide⟩⟩
  by_cases hd : c = '"'
  · subst hd; exact Or.inl (by decide)
  · exact Or.inr ⟨by simp [esc6, esc5, esc4, esc3, esc2, esc1, hd, hn, ht, hr, hq],
      Or.inl ⟨c, by simp [esc5, esc4, esc3, esc2, esc1, escChar, hb, hn, ht, hr, hq, hd], hb⟩⟩

lemma esc6_eq (c : Char) : esc6 c = if c = bslash then [nulChar] else [c] := by
  by_cases hb : c = bslash
  · subst hb; decide
  by_cases hn : c = '\n'
  · subst hn; decide
  by_cases ht : c = '\t'
  · subst ht; decide
  by_cases hr : c = '\r'
  · subst hr; decide
  by_cases hq : c = squote
  · subst hq; decide
  by_cases hd : c = '"'
  · subst hd; decide
  · simp [esc6, esc5, esc4, esc3, esc2, esc1, escChar, hb, hn, ht, hr, hq, hd]

lemma repl1_flatMap_esc6 (s : List Char) (h : nulChar ∉ s) :
    repl1 nulChar bslash (s.flatMap esc6) = s := by
  induction s with
  | nil => simp [repl1]
  | cons c s ih =>
    have hc : c ≠ nulChar := fun hc => h (hc ▸ List.mem_cons_self c s)
    have hs : nulChar ∉ s := fun hs => h (List.mem_cons_of_mem c hs)
    simp only [List.flatMap_cons, repl1, List.map_append] at *
    rw [esc6_eq]
    by_cases hb : c = bslash
    · subst hb
      simpa using ih hs
    · simp only [hb, if_false, List.map_cons, List.map_nil, hc, if_neg hc]
      simpa using ih hs

/-- C2: for every string over the supported escape set (newline, tab,
carriage return, single quote, double quote, and a literal backslash;
in particular no NUL character, which the unescape chain reserves as
its internal placeholder), the unescape step of `extract_agent_message`
reproduces the original text exactly from its serialized form:
`unescape (pyEscape s) = s`, including a literal backslash immediately
followed by a letter that also denotes an escape. -/
theorem C2_unescape_round_trip (s : List Char) (h : nulChar ∉ s) :
    unescape (pyEscape s) = s := by
  unfold unescape pyEscape
  rw [pass1, pass2, pass3, pass4, pass5, pass6]
  exact repl1_flatMap_esc6 s h

/-- C2 witness: the two-character sequence backslash-n round-trips to
backslash-n (not to a newline). -/
theorem C2_unescape_round_trip_witness :
    nulChar ∉ [bslash, 'n'] ∧ unescape (pyEscape [bslash, 'n']) = [bslash, 'n'] :=
  ⟨by decide, C2_unescape_round_trip [bslash, 'n'] (by decide)⟩

lemma runAux_results_length (g : GraphDef) (caps : String → List Char → List Char)
    (render : List (String × NodeResult) → List Char) :
    ∀ fuel current prompt results,
      ((runAux g caps render fuel current prompt results).results).length ≤
        results.length + fuel + 1 := by
  intro fuel
  induction fuel with
  | zero =>
    intro current prompt results
    simp only [runAux]
    split <;>
      (simp only [RunOutcome.results, List.length_append, List.length_cons,
        List.length_nil]; omega)
  | succ fuel ih =>
    intro current prompt results
    simp only [runAux]
    split
    · simp only [RunOutcome.results, List.length_append, List.length_cons,
        List.length_nil]
      omega
    · split
      · simp only [RunOutcome.results, List.length_append, List.length_cons,
          List.length_nil]
        omega
      · refine le_trans (ih _ _ _) ?_
        simp only [List.length_append, List.length_cons, List.length_nil]
        omega

lemma selectEdge_ne_none (g : GraphDef) (current : String) (st : GraphState)
    (e : GEdge) (he : e ∈ g.edges) (hesrc : e.source = current)
    (hecond : e.condition.isNone = true) :
    selectEdge g current st ≠ none := by
  intro hnone
  have hmem : e ∈ g.edges.filter fun e => e.source == current :=
    List.mem_filter.mpr ⟨he, by simp [hesrc]⟩
  have hfail := List.find?_eq_none.mp hnone e hmem
  have : evalCond st e = true := by
    cases hc : e.condition with
    | some c => rw [hc] at hecond; simp at hecond
    | none => simp [evalCond, hc]
  exact hfail this

lemma selectEdge_target_mem (g : GraphDef) (current : String) (st : GraphState)
    (e : GEdge) (hsel : selectEdge g current st = some e)
    (hedges : ∀ e ∈ g.edges, e.source ∈ g.nodes ∧ e.target ∈ g.nodes) :
    e.target ∈ g.nodes := by
  have hmem := List.mem_of_find?_eq_some hsel
  exact (hedges e (List.mem_filter.mp hmem).1).2

lemma runAux_valid_outcome (g : GraphDef) (caps : String → List Char → List Char)
    (render : List (String × NodeResult) → List Char) (hv : validGraph g) :
    ∀ fuel current prompt results, current ∈ g.nodes →
      (∃ rs, runAux g caps render fuel current prompt results = .success rs) ∨
      (∃ rs, runAux g caps render fuel current prompt results = .boundsExceeded rs) := by
  intro fuel
  induction fuel with
  | zero =>
    intro current prompt results _
    by_cases hterm : current = g.terminal
    · exact Or.inl ⟨results ++ [(current, mkNodeResult (caps current prompt))],
        by simp [runAux, hterm]⟩
    · exact Or.inr ⟨results ++ [(current, mkNodeResult (caps current prompt))],
        by simp [runAux, hterm]⟩
  | succ fuel ih =>
    intro current prompt results hcur
    by_cases hterm : current = g.terminal
    · exact Or.inl ⟨results ++ [(current, mkNodeResult (caps current prompt))],
        by simp [runAux, hterm]⟩
    · obtain ⟨e, he, hesrc, hecond⟩ := hv.2.2 current hcur hterm
      simp only [runAux, if_neg hterm]
      cases hsel : selectEdge g current
          ⟨results ++ [(current, mkNodeResult (caps current prompt))],
            render (results ++ [(current, mkNodeResult (caps current prompt))])⟩ with
      | none => exact absurd hsel (selectEdge_ne_none g current _ e he hesrc hecond)
      | some e' =>
        exact ih e'.target (caps current prompt) _
          (selectEdge_target_mem g current _ e' hsel hv.2.1)

/-- C1: for every graph definition passing construction-time validation,
every family of node capabilities and every initial prompt, `run`
performs at most `maxNodeExecutions` node invocations before stopping,
and its outcome is either a success or a bounds-exceeded error carrying
the partial execution record; in the built order-processing graph the
bound is 10 node executions and the configured timeout is 300
seconds. -/
theorem C1_run_within_bounds :
    (∀ (g : GraphDef) (caps : String → List Char → List Char)
       (render : List (String × NodeResult) → List Char) (prompt : List Char),
       validGraph g →
         ((run g caps render prompt).results).length ≤ g.maxNodeExecutions ∧
         ((∃ rs, run g caps render prompt = .success rs) ∨
          (∃ rs, run g caps render prompt = .boundsExceeded rs))) ∧
    orderProcessingGraph.maxNodeExecutions = 10 ∧
    orderProcessingGraph.executionTimeout = 300 := by
  refine ⟨fun g caps render prompt hv => ?_, rfl, rfl⟩
  unfold run
  cases hmax : g.maxNodeExecutions with
  | zero => exact ⟨by simp [RunOutcome.results], Or.inr ⟨[], rfl⟩⟩
  | succ fuel =>
    constructor
    · have := runAux_results_length g caps render fuel g.entry prompt []
      simpa using this
    · exact runAux_valid_outcome g caps render hv fuel g.entry prompt [] hv.1

/-- C1 witness: the built order-processing graph passes validation and a
run with stub capabilities stays within its configured bound of 10 node
executions. -/
theorem C1_run_within_bounds_witness :
    validGraph orderProcessingGraph ∧
    ((run orderProcessingGraph (fun _ _ => []) (fun _ => []) []).results).length ≤
      orderProcessingGraph.maxNodeExecutions :=
  ⟨by decide, (C1_run_within_bounds.1 orderProcessingGraph
    (fun _ _ => []) (fun _ => []) [] (by decide)).1⟩

/-- C5: the two routing conditions attached to the router node are
mutually exclusive: on every execution state at least one of
`is_image_request` and `is_order_request` is false, because the order
classification requires the image marker to be absent from the very
text the image classification requires it to be present in. -/
theorem C5_conditions_mutually_exclusive (st : GraphState) :
    is_image_request st = false ∨ is_order_request st = false := by
  by_cases h : strContains (lowerStr (effectiveRouterOutput st)) route_to_image_marker = true
  · right
    simp [is_order_request, h]
  · left
    simpa [is_image_request] using h

/-- C7: on the Scenario B router output (order details with literal
newlines) `is_order_request` returns true and `is_image_request`
returns false, so edge selection out of the router takes the order
edge, and the order and warehouse nodes continue along their
unconditional edges to warehouse and back to the router. -/
theorem C7_order_scenario :
    is_order_request orderScenarioState = true ∧
    is_image_request orderScenarioState = false ∧
    (selectEdge orderProcessingGraph "router" orderScenarioState).map GEdge.target =
      some "order" ∧
    ∀ st : GraphState,
      (selectEdge orderProcessingGraph "order" st).map GEdge.target = some "warehouse" ∧
      (selectEdge orderProcessingGraph "warehouse" st).map GEdge.target = some "router" := by
  refine ⟨by decide, by decide, by decide, fun st => ⟨rfl, rfl⟩⟩

/-- C8: `is_image_request` returns true on the router output
"please route_to_image now", and it returns true on every execution
state whose router output lower-cases to text containing the
"route_to_image" marker, whatever else the text contains. -/
theorem C8_image_marker_condition :
    is_image_request imageScenarioState = true ∧
    ∀ st : GraphState,
      strContains (lowerStr (routerOutput st)) route_to_image_marker = true →
      is_image_request st = true := by
  refine ⟨by decide, fun st h => ?_⟩
  by_cases hro : routerOutput st = []
  · rw [hro] at h
    simp only [lowerStr, List.map_nil] at h
    exact absurd h (by decide)
  · simp only [is_image_request, effectiveRouterOutput, if_neg hro]
    exact h

/-- C8 witness: the Scenario A state satisfies the containment
hypothesis and the condition returns true on it. -/
theorem C8_image_marker_condition_witness :
    strContains (lowerStr (routerOutput imageScenarioState)) route_to_image_marker = true ∧
    is_image_request imageScenarioState = true :=
  ⟨by decide, C8_image_marker_condition.2 imageScenarioState (by decide)⟩

/-- C10 counterexample: two states whose router node has the identical
(empty) latest output text but different string renderings get
different routing decisions, because the source falls back to
`str(result)` when the extracted router output is empty; this refutes
the claim that no other part of the state influences the outcome. -/
theorem C10_counterexample :
    routerOutput emptyRouterStateA = routerOutput emptyRouterStateB ∧
    is_image_request emptyRouterStateA = true ∧
    is_image_request emptyRouterStateB = false := by decide

/-- C10 amended: whenever the router node's latest output text is
identical in two execution states and non-empty, `is_image_request`
and `is_order_request` decide identically on both states; the
string-rendering fallback only matters when that text is empty or
missing. -/
theorem C10_conditions_depend_on_router_output (st1 st2 : GraphState)
    (h : routerOutput st1 = routerOutput st2) (hne : routerOutput st1 ≠ []) :
    is_image_request st1 = is_image_request st2 ∧
    is_order_request st1 = is_order_request st2 := by
  have hne2 : routerOutput st2 ≠ [] := h ▸ hne
  have he : effectiveRouterOutput st1 = effectiveRouterOutput st2 := by
    unfold effectiveRouterOutput
    rw [if_neg hne, if_neg hne2, h]
  exact ⟨by simp [is_image_request, he], by simp [is_order_request, he]⟩

/-- C10 witness: two states sharing the non-empty Scenario B router
output (with different whole-state renderings) decide identically. -/
theorem C10_conditions_depend_on_router_output_witness :
    routerOutput orderScenarioState = routerOutput orderScenarioStateAlt ∧
    routerOutput orderScenarioState ≠ [] ∧
    is_image_request orderScenarioState = is_image_request orderScenarioStateAlt :=
  ⟨by decide, by decide,
    (C10_conditions_depend_on_router_output orderScenarioState orderScenarioStateAlt
      (by decide) (by decide)).1⟩

lemma digitCh_inj (d1 d2 : Nat) (h1 : d1 < 10) (h2 : d2 < 10)
    (h : digitCh d1 = digitCh d2) : d1 = d2 := by
  interval_cases d1 <;> interval_cases d2 <;> revert h <;> decide

lemma map_digitCh_inj : ∀ l1 l2 : List Nat, (∀ d ∈ l1, d < 10) → (∀ d ∈ l2, d < 10) →
    l1.map digitCh = l2.map digitCh → l1 = l2 := by
  intro l1
  induction l1 with
  | nil =>
    intro l2 _ _ h
    cases l2 with
    | nil => rfl
    | cons b t => simp at h
  | cons a t ih =>
    intro l2 h1 h2 h
    cases l2 with
    | nil => simp at h
    | cons b t2 =>
      simp only [List.map_cons, List.cons.injEq] at h
      have ha := h1 a (List.mem_cons_self a t)
      have hb := h2 b (List.mem_cons_self b t2)
      rw [digitCh_inj a b ha hb h.1,
        ih t2 (fun d hd => h1 d (List.mem_cons_of_mem _ hd))
          (fun d hd => h2 d (List.mem_cons_of_mem _ hd)) h.2]

lemma natToChars_singleton_zero (b : Nat) (hb : b ≠ 0)
    (h : ['0'] = ((Nat.digits 10 b).map digitCh).reverse) : False := by
  have hlen : (Nat.digits 10 b).length = 1 := by
    have := congrArg List.length h
    simpa using this.symm
  obtain ⟨d, hd⟩ := List.length_eq_one.mp hlen
  rw [hd] at h
  simp at h
  have hdlt : d < 10 := Nat.digits_lt_base (by norm_num) (by rw [hd]; exact List.mem_singleton_self d)
  have hd0 : 0 = d := digitCh_inj 0 d (by norm_num) hdlt (by rw [show digitCh 0 = '0' from by decide]; exact h)
  have hb' := congrArg (Nat.ofDigits 10) hd
  rw [Nat.ofDigits_digits] at hb'
  simp [Nat.ofDigits, ← hd0] at hb'
  exact hb hb'

lemma natToChars_inj (a b : Nat) (h : natToChars a = natToChars b) : a = b := by
  unfold natToChars at h
  by_cases ha : a = 0 <;> by_cases hb : b = 0
  · rw [ha, hb]
  · rw [if_pos ha, if_neg hb] at h
    exact absurd (natToChars_singleton_zero b hb h) not_false
  · rw [if_neg ha, if_pos hb] at h
    exact absurd (natToChars_singleton_zero a ha h.symm) not_false
  · rw [if_neg ha, if_neg hb] at h
    have h1 := List.reverse_injective h
    have h2 := map_digitCh_inj _ _
      (fun d hd => Nat.digits_lt_base (by norm_num) hd)
      (fun d hd => Nat.digits_lt_base (by norm_num) hd) h1
    have h3 := congrArg (Nat.ofDigits 10) h2
    simpa [Nat.ofDigits_digits] using h3

/-- C6: the derived session key is the conversation identifier
concatenated with floor(clockSeconds / windowSeconds); for every
conversation identifier and positive window size, two clocks in the
same window bucket derive equal keys and two clocks one full window
apart derive different keys - both for the spec-level `deriveKey` and
for the handler's concrete `session_id` with its 300 second window. -/
theorem C6_session_key_windows :
    (∀ (cid : List Char) (t1 t2 w : Nat), 0 < w →
      (t1 / w = t2 / w → deriveKey cid t1 w = deriveKey cid t2 w) ∧
      deriveKey cid t1 w ≠ deriveKey cid (t1 + w) w) ∧
    (∀ (sender : List Char) (t1 t2 : Nat),
      (t1 / 300 = t2 / 300 → session_id sender t1 = session_id sender t2) ∧
      session_id sender t1 ≠ session_id sender (t1 + 300)) := by
  constructor
  · intro cid t1 t2 w hw
    constructor
    · intro h
      unfold deriveKey
      rw [h]
    · intro h
      unfold deriveKey at h
      have h2 := natToChars_inj _ _ (List.append_cancel_left h)
      rw [Nat.add_div_right t1 hw] at h2
      omega
  · intro sender t1 t2
    constructor
    · intro h
      unfold session_id
      rw [h]
    · intro h
      unfold session_id at h
      have h1 := List.append_cancel_left h
      simp only [List.cons.injEq, true_and] at h1
      have h2 := natToChars_inj _ _ h1
      rw [Nat.add_div_right t1 (by norm_num)] at h2
      omega

/-- C6 witness: concrete clocks in the same bucket and one window
apart, for a window of 10 seconds and for the handler's 300 second
window. -/
theorem C6_session_key_windows_witness :
    (0:Nat) < 10 ∧
    deriveKey ['c'] 7 10 = deriveKey ['c'] 9 10 ∧
    deriveKey ['c'] 7 10 ≠ deriveKey ['c'] 17 10 ∧
    session_id ['a'] 3 = session_id ['a'] 250 ∧
    session_id ['a'] 3 ≠ session_id ['a'] 303 :=
  ⟨by decide,
   (C6_session_key_windows.1 ['c'] 7 9 10 (by decide)).1 (by decide),
   (C6_session_key_windows.1 ['c'] 7 9 10 (by decide)).2,
   (C6_session_key_windows.2 ['a'] 3 250).1 (by decide),
   (C6_session_key_windows.2 ['a'] 3 250).2⟩

/-- C4 counterexample: at any wall-clock past 1800 (for instance 4000)
the conv1 record is expired, yet as long as the medium has not purged
it, `get_catalog_options` still returns the stored value - found=true -
refuting the claim that a get on an expired-but-unpurged entry behaves
as found=false. -/
theorem C4_expired_get_counterexample :
    (ddb_get expiredTable "conv1").map PendingOrderItem.ttl = some 1800 ∧
    (1800 : Nat) < 4000 ∧
    get_catalog_options expiredTable "conv1" = some ("options text".toList) := by
  decide

/-- C4 amended: `get_catalog_options` returns the stored value exactly
when the record is physically present, regardless of its expiry
timestamp or of the current time; expiry is enforced only by the
medium's lazy purge.  In particular a get immediately after a put
returns the stored message. -/
theorem C4_get_ignores_expiry :
    (∀ (table : List (String × PendingOrderItem)) (k : String)
       (item : PendingOrderItem), ddb_get table k = some item →
       get_catalog_options table k = some item.catalog_options) ∧
    (∀ (table : List (String × PendingOrderItem)) (k : String)
       (v : List Char) (now : Nat),
       get_catalog_options (store_catalog_options table k v now) k = some v) := by
  constructor
  · intro table k item h
    unfold get_catalog_options
    rw [h]
    rfl
  · intro table k v now
    simp [get_catalog_options, store_catalog_options, ddb_put, ddb_get, List.lookup]

/-- C4 witness: the expired conv1 record is present, and the amended
theorem applied to it returns the stored text. -/
theorem C4_get_ignores_expiry_witness :
    ddb_get expiredTable "conv1" = some ⟨"options text".toList, 0, 1800⟩ ∧
    get_catalog_options expiredTable "conv1" = some ("options text".toList) :=
  ⟨by decide,
    C4_get_ignores_expiry.1 expiredTable "conv1" ⟨"options text".toList, 0, 1800⟩ (by decide)⟩

/-- C3 counterexample: a response in which the terminal (router) node
never executed but another node did makes `extract_agent_message`
return that other node's text - not a failure indication - refuting
the claim that a missing terminal result yields ok=false. -/
theorem C3_missing_router_counterexample :
    extract_agent_message catalogOnlyMatches = "Here are your options".toList ∧
    "Here are your options".toList ≠ errorMessage := by decide

/-- C3 amended: when no node results at all are found the extractor
itself returns a fixed generic error text (rather than signalling
ok=false to the caller), and when node results exist but none is the
router the extractor falls back to the last matched node's processed
text instead of failing. -/
theorem C3_extractor_fallback_behaviour :
    extract_agent_message [] = errorMessage ∧
    ∀ (ms : List (String × List Char)) (m : String × List Char),
      (∀ p ∈ ms, p.1 ≠ "router") → ms.getLast? = some m →
      extract_agent_message ms = postprocessMessage (unescape m.2) := by
  constructor
  · rfl
  · intro ms m hnr hlast
    have hfind : ms.find? (fun m => m.1 == "router") = none := by
      apply List.find?_eq_none.mpr
      intro x hx
      simp only [beq_iff_eq]
      exact hnr x hx
    unfold extract_agent_message select_node_match
    simp only [hfind, hlast]

/-- C3 witness: a response with a single warehouse result and no router
result satisfies the hypotheses, and the extractor returns the
warehouse text. -/
theorem C3_extractor_fallback_witness :
    (∀ p ∈ warehouseOnlyMatches, p.1 ≠ "router") ∧
    extract_agent_message warehouseOnlyMatches =
      postprocessMessage (unescape ("Delivery booked".toList)) :=
  ⟨by decide,
    C3_extractor_fallback_behaviour.2 warehouseOnlyMatches
      ("warehouse", "Delivery booked".toList) (by decide) (by decide)⟩

lemma lookup_append_not_mem (l1 l2 : List (String × NodeResult)) (k : String)
    (h : ∀ p ∈ l1, p.1 ≠ k) : (l1 ++ l2).lookup k = l2.lookup k := by
  induction l1 with
  | nil => rfl
  | cons p l1 ih =>
    obtain ⟨a, b⟩ := p
    have ha : (k == a) = false := by
      apply beq_eq_false_iff_ne.mpr
      intro hk
      exact h (a, b) (List.mem_cons_self _ _) hk.symm
    simp only [List.cons_append, List.lookup, ha]
    exact ih fun q hq => h q (List.mem_cons_of_mem _ hq)

/-- C9: extraction locates the router NodeResult with the highest
execution index - when the router executed more than once in a run,
the text handed back to the caller comes from its most recent
execution (here `r2`, not the earlier `r1`), whatever precedes or
follows it in the execution record. -/
theorem C9_latest_router_execution
    (pre mid post : List (String × NodeResult)) (r1 r2 : NodeResult)
    (rep t : List Char) (rest : List (List Char))
    (hcontent : r2.result.message.content = t :: rest) (ht : t ≠ [])
    (hpost : ∀ p ∈ post, p.1 ≠ "router") :
    extract_router_message
      ⟨pre ++ ("router", r1) :: mid ++ ("router", r2) :: post, rep⟩ = t := by
  have hrev : (pre ++ ("router", r1) :: mid ++ ("router", r2) :: post).reverse
      = post.reverse ++ ("router", r2) ::
          (mid.reverse ++ ("router", r1) :: pre.reverse) := by
    simp
  have hlook : latestLookup
      (pre ++ ("router", r1) :: mid ++ ("router", r2) :: post) "router" = some r2 := by
    unfold latestLookup
    rw [hrev, lookup_append_not_mem _ _ _
      (fun p hp => hpost p (List.mem_reverse.mp hp))]
    simp [List.lookup]
  unfold extract_router_message
  simp only [hlook, hcontent]
  simp [ht]

/-- C9 witness: with two router executions recorded, extraction returns
the text of the second (most recent) one. -/
theorem C9_latest_router_execution_witness :
    extract_router_message
      ⟨[("router", mkNodeResult "first".toList), ("router", mkNodeResult "second".toList)],
        []⟩ = "second".toList :=
  C9_latest_router_execution [] [] [] (mkNodeResult "first".toList)
    (mkNodeResult "second".toList) [] ("second".toList) [] rfl (by decide)
    (by intro p hp; cases hp)
